import Mathlib

/-!
Verification of the CloudMart resource-tagging dashboard (`elias_week10.py`):
a shallow embedding of its CSV loading, filter, and aggregation pipeline,
with theorems checking the natural-language specification against it.

Modelling conventions:
* A pandas cell of an object (string) column is `Cell`: either a string or
  the null marker `NaN`.
* `MonthlyCostUSD` is `Option ℚ` (`none` is the NaN produced by
  `pd.to_numeric(..., errors='coerce')`); pandas sums skip NaN, modelled by
  `Option.getD _ 0`.
* Computations that can raise a Python exception return `Option` (`none`
  models the exception).
* `groupby(k)[c].sum()` is modelled as: distinct non-null keys in ascending
  lexicographic (code-point) order, each paired with the sum over its rows;
  `sort_values(ascending=False)` is modelled as a stable descending
  insertion sort on the summed value.  The real sort uses the default
  `kind='quicksort'`, which is stable only below numpy's small-sort
  threshold, so universal theorems about a sorted result rely only on
  consequences that hold for any correct descending sort (weakly
  descending order, content as a permutation); exact tie order is only
  ever asserted at concrete small inputs, where the two sorts agree.
-/

namespace Week10

/-! ### Cells -/

/-- One cell of a string (object-dtype) column: a Python string or NaN. -/
inductive Cell where
  | str : String → Cell
  | nullv : Cell
deriving DecidableEq

/-- Models `pd.notna` on an object cell: only NaN is "missing". -/
def Cell.notna : Cell → Bool
  | .nullv => false
  | .str _ => true

/-- Models `pd.isnull` on an object cell. -/
def Cell.isnull (c : Cell) : Bool := ! c.notna

/-- Models `Series.isin(vals)` on one cell: NaN matches nothing. -/
def Cell.isin (c : Cell) (vals : List String) : Bool :=
  match c with
  | .str v => vals.contains v
  | .nullv => false

/-- The string held by a non-null cell. -/
def cellStr? : Cell → Option String
  | .str s => some s
  | .nullv => none

/-! ### Resource records (one row of the dataset, post-load) -/

/-- One row of the loaded dataframe, with the columns the dashboard requires.
`MonthlyCostUSD` is the numerically coerced column; all other columns are
object columns. -/
structure Rec where
  AccountID : Cell
  ResourceID : Cell
  Service : Cell
  Region : Cell
  Department : Cell
  Project : Cell
  Environment : Cell
  Owner : Cell
  CostCenter : Cell
  CreatedBy : Cell
  MonthlyCostUSD : Option ℚ
  Tagged : Cell
deriving DecidableEq

/-- The required-column check of the dashboard (`required_cols` in the source). -/
def required_cols : List String :=
  ["AccountID", "ResourceID", "Service", "Region", "Department", "Project",
   "Environment", "Owner", "CostCenter", "CreatedBy", "MonthlyCostUSD", "Tagged"]

/-- The five governance tag fields (`tag_columns` in the source). -/
def tag_columns : List String :=
  ["Department", "Project", "Environment", "Owner", "CostCenter"]

/-! ### CSV parsing (`load_data`)

The source reads the file line by line; each line is `strip()`ped, its
double quotes removed by `replace('"', '')`, split on commas, and each
field `strip()`ped again.  These string operations are modelled
structurally on `String.data` so they evaluate inside the kernel. -/

/-- Models Python `str.strip()`: drop whitespace from both ends. -/
def stripChars (cs : List Char) : List Char :=
  ((cs.dropWhile Char.isWhitespace).reverse.dropWhile Char.isWhitespace).reverse

/-- Models Python `str.replace('"', '')`: remove every double quote. -/
def removeQuotes (cs : List Char) : List Char :=
  cs.filter (fun c => c != '"')

/-- Models Python `str.split(sep)` for a one-character separator. -/
def splitOnChar (sep : Char) : List Char → List (List Char)
  | [] => [[]]
  | c :: cs =>
    if c = sep then [] :: splitOnChar sep cs
    else
      match splitOnChar sep cs with
      | [] => [[c]]
      | fld :: rest => (c :: fld) :: rest

/-- Models `[v.strip() for v in line.strip().replace('"', '').split(',')]`. -/
def cleanLine (line : String) : List String :=
  (splitOnChar ',' (removeQuotes (stripChars line.data))).map
    fun f => String.mk (stripChars f)

/-- Accumulate a digit string into a natural number. -/
def digitsToNat (cs : List Char) : Nat :=
  cs.foldl (fun n c => n * 10 + (c.toNat - 48)) 0

/-- Every character is a decimal digit. -/
def allDigits (cs : List Char) : Bool := cs.all fun c => c.isDigit

/-- Unsigned decimal literal: digits with at most one decimal point. -/
def parseUnsigned (cs : List Char) : Option ℚ :=
  match splitOnChar '.' cs with
  | [w] => if allDigits w && !w.isEmpty then some (digitsToNat w : ℚ) else none
  | [w, f] =>
    if allDigits w && allDigits f && !(w.isEmpty && f.isEmpty) then
      some ((digitsToNat w : ℚ) + (digitsToNat f : ℚ) / (10 : ℚ) ^ f.length)
    else none
  | _ => none

/-- Models `pd.to_numeric(value, errors='coerce')` on an already-stripped
field, for plain (optionally signed) decimal literals: anything else
becomes the NaN marker `none` instead of raising. -/
def parseCost (s : String) : Option ℚ :=
  match s.data with
  | '-' :: cs => (parseUnsigned cs).map (fun q => -q)
  | '+' :: cs => parseUnsigned cs
  | cs => parseUnsigned cs

/-- The loaded raw frame: the parsed header and the accepted data rows
(still as strings, before numeric coercion of `MonthlyCostUSD`). -/
structure RawFrame where
  headers : List String
  rows : List (List String)
deriving DecidableEq

/-- One iteration of the row loop in `load_data`: skip blank lines, clean
the line, and accept it only when its field count matches the header's. -/
def parseRow (headers : List String) (line : String) : Option (List String) :=
  if (stripChars line.data).isEmpty then none
  else
    let values := cleanLine line
    if values.length = headers.length then some values else none

/-- Models `load_data` in the source: header from the first line, data rows
filtered by field count.  `none` models the exception path (empty file, or
`df['MonthlyCostUSD']` absent when `pd.to_numeric` is applied), which the
caller catches and turns into a halt. -/
def load_data (lines : List String) : Option RawFrame :=
  match lines with
  | [] => none
  | headerLine :: rest =>
    let headers := cleanLine headerLine
    if "MonthlyCostUSD" ∈ headers then
      some ⟨headers, rest.filterMap (parseRow headers)⟩
    else none

/-- Position of a column name in the header (first match). -/
def idxOf (name : String) : List String → Nat
  | [] => 0
  | h :: t => if h = name then 0 else idxOf name t + 1

/-- Cell of a named column in a row: a string when the column exists and
the row is long enough, NaN otherwise. -/
def colVal (headers row : List String) (name : String) : Cell :=
  match row[idxOf name headers]? with
  | some v => Cell.str v
  | none => Cell.nullv

/-- The numerically coerced `MonthlyCostUSD` cell of a row. -/
def costVal (headers row : List String) : Option ℚ :=
  (row[idxOf "MonthlyCostUSD" headers]?).bind parseCost

/-- Assemble a `Rec` from a raw row by named column lookup. -/
def toRec (headers row : List String) : Rec where
  AccountID := colVal headers row "AccountID"
  ResourceID := colVal headers row "ResourceID"
  Service := colVal headers row "Service"
  Region := colVal headers row "Region"
  Department := colVal headers row "Department"
  Project := colVal headers row "Project"
  Environment := colVal headers row "Environment"
  Owner := colVal headers row "Owner"
  CostCenter := colVal headers row "CostCenter"
  CreatedBy := colVal headers row "CreatedBy"
  MonthlyCostUSD := costVal headers row
  Tagged := colVal headers row "Tagged"

/-- The record set held by the loaded dataframe. -/
def toRecs (f : RawFrame) : List Rec := f.rows.map (toRec f.headers)

/-! ### Sidebar filters -/

/-- The user's multiselect choices for the four filter fields. -/
structure Selections where
  dept : List String
  service : List String
  region : List String
  env : List String
deriving DecidableEq

/-- Models the filter application block of the source: each field is
restricted with `isin` unless the sentinel `'All'` is among its chosen
values, in which case the field is left unrestricted. -/
def applyFilters (df : List Rec) (s : Selections) : List Rec :=
  let d1 := if "All" ∈ s.dept then df else df.filter fun r => r.Department.isin s.dept
  let d2 := if "All" ∈ s.service then d1 else d1.filter fun r => r.Service.isin s.service
  let d3 := if "All" ∈ s.region then d2 else d2.filter fun r => r.Region.isin s.region
  if "All" ∈ s.env then d3 else d3.filter fun r => r.Environment.isin s.env

/-! ### Counts, costs and percentage metrics (Task Sets 1 and 2) -/

/-- `len(filtered_df[filtered_df['Tagged'] == 'Yes'])`. -/
def tagged_count (df : List Rec) : ℕ :=
  (df.filter fun r => decide (r.Tagged = Cell.str "Yes")).length

/-- `len(filtered_df[filtered_df['Tagged'] == 'No'])`. -/
def untagged_count (df : List Rec) : ℕ :=
  (df.filter fun r => decide (r.Tagged = Cell.str "No")).length

/-- The cost of one record as it enters a pandas sum: NaN contributes 0. -/
def costOf (r : Rec) : ℚ := r.MonthlyCostUSD.getD 0

/-- `Series.sum()` on the `MonthlyCostUSD` column of a view (skips NaN). -/
def sumCost (df : List Rec) : ℚ := (df.map costOf).sum

/-- `total_cost` of Task 2.1. -/
def total_cost (df : List Rec) : ℚ := sumCost df

/-- `tagged_cost` of Task 2.1. -/
def tagged_cost (df : List Rec) : ℚ :=
  sumCost (df.filter fun r => decide (r.Tagged = Cell.str "Yes"))

/-- `untagged_cost` of Task 2.1. -/
def untagged_cost (df : List Rec) : ℚ :=
  sumCost (df.filter fun r => decide (r.Tagged = Cell.str "No"))

/-- The Tagged % metric of Task 1.4:
`tagged_count/len(filtered_df)*100` with no emptiness guard, so `none`
(a ZeroDivisionError) on an empty view. -/
def tagged_pct_metric (df : List Rec) : Option ℚ :=
  if df.length = 0 then none
  else some ((tagged_count df : ℚ) / (df.length : ℚ) * 100)

/-- `untagged_pct` of Task 1.5, guarded by `if len(filtered_df) > 0 else 0`. -/
def untagged_pct (df : List Rec) : ℚ :=
  if 0 < df.length then (untagged_count df : ℚ) / (df.length : ℚ) * 100 else 0

/-- `untagged_cost_pct` of Task 2.2, guarded by `if total_cost > 0 else 0`. -/
def untagged_cost_pct (df : List Rec) : ℚ :=
  if 0 < total_cost df then untagged_cost df / total_cost df * 100 else 0

/-- The per-environment `Tagging %` of Task 2.5, guarded by
`if len(env_df) > 0 else 0`. -/
def env_tagging_pct (df : List Rec) (env : String) : ℚ :=
  let env_df := df.filter fun r => decide (r.Environment = Cell.str env)
  if 0 < env_df.length then (tagged_count env_df : ℚ) / (env_df.length : ℚ) * 100 else 0

/-- Display rounding of a percentage to two decimals (`:.2f`),
round-half-up on the exact rational value. -/
def round2 (q : ℚ) : ℚ := (⌊q * 100 + 1 / 2⌋ : ℚ) / 100

/-! ### Group-by-sum

`df.groupby(k)[c].sum()` lists the distinct non-null keys in ascending
lexicographic order; `sort_values(c, ascending=False)` then reorders by
descending sum (modelled as a stable sort). -/

/-- Lexicographic code-point comparison of two strings (Python `<`). -/
def lexLt : List Char → List Char → Bool
  | [], [] => false
  | [], _ :: _ => true
  | _ :: _, [] => false
  | a :: as, b :: bs =>
    if a.toNat < b.toNat then true
    else if b.toNat < a.toNat then false
    else lexLt as bs

/-- String version of `lexLt`. -/
def strLt (a b : String) : Bool := lexLt a.data b.data

/-- Insert a key into an ascending-sorted key list. -/
def insertAsc (k : String) : List String → List String
  | [] => [k]
  | x :: xs => if strLt x k then x :: insertAsc k xs else k :: x :: xs

/-- Ascending lexicographic sort of group keys (pandas `groupby` sorts
its keys). -/
def sortKeysAsc : List String → List String
  | [] => []
  | k :: ks => insertAsc k (sortKeysAsc ks)

/-- Distinct values in order of first appearance. -/
def dedupFirst : List String → List String
  | [] => []
  | x :: xs => x :: (dedupFirst xs).filter (fun y => y != x)

/-- Stable insertion of a keyed sum into a descending-sorted list:
an incoming element goes before every element with the same sum. -/
def insertDesc (p : String × ℚ) : List (String × ℚ) → List (String × ℚ)
  | [] => [p]
  | q :: qs => if q.2 ≤ p.2 then p :: q :: qs else q :: insertDesc p qs

/-- Descending sort by summed cost, modelling
`sort_values('MonthlyCostUSD', ascending=False)`.  The source uses the
default `kind='quicksort'` (numpy introsort), which is **not** stable
above numpy's insertion-sort threshold (≈16 elements): for many tied
sums the real tie order is scrambled.  This model is a stable insertion
sort; it agrees with the code on the weakly-descending order and on the
multiset of entries for every input, and on exact tie order only in the
small-tie regime (where introsort is in its stable insertion-sort
phase).  Universal theorems over this definition therefore only assert
the order-insensitive or weakly-descending consequences; exact output
order is asserted only for concrete inputs with few or no ties. -/
def sortCostDesc : List (String × ℚ) → List (String × ℚ)
  | [] => []
  | p :: ps => insertDesc p (sortCostDesc ps)

/-- The distinct non-null key values of a view, in the ascending order
`groupby` emits them. -/
def groupKeys (df : List Rec) (key : Rec → Cell) : List String :=
  sortKeysAsc (dedupFirst (df.filterMap fun r => cellStr? (key r)))

/-- `df.groupby(key)['MonthlyCostUSD'].sum().reset_index()`. -/
def groupSums (df : List Rec) (key : Rec → Cell) : List (String × ℚ) :=
  (groupKeys df key).map fun k =>
    (k, sumCost (df.filter fun r => decide (key r = Cell.str k)))

/-- A grouped cost sum followed by `sort_values('MonthlyCostUSD',
ascending=False)`, as in Tasks 2.3 and 2.4. -/
def groupBySum (df : List Rec) (key : Rec → Cell) : List (String × ℚ) :=
  sortCostDesc (groupSums df key)

/-- Modelled from the spec: the same group-by-sum, but with the groups
ordered by first appearance of the key in the view before the descending
sort, as the spec's tie-break rule describes ("ties broken by
first-appearance order of the group key in the filtered view"). -/
def groupBySumSpec (df : List Rec) (key : Rec → Cell) : List (String × ℚ) :=
  sortCostDesc ((dedupFirst (df.filterMap fun r => cellStr? (key r))).map fun k =>
    (k, sumCost (df.filter fun r => decide (key r = Cell.str k))))

/-- `dept_untagged` of Task 2.3: untagged cost per department, descending. -/
def dept_untagged (df : List Rec) : List (String × ℚ) :=
  groupBySum (df.filter fun r => decide (r.Tagged = Cell.str "No")) (fun r => r.Department)

/-- `project_cost` of Task 2.4: total cost per project, descending. -/
def project_cost (df : List Rec) : List (String × ℚ) :=
  groupBySum df (fun r => r.Project)

/-- `env_cost` of Task 4.4: total cost per environment (groupby only,
no descending sort in the source at that point). -/
def env_cost (df : List Rec) : List (String × ℚ) :=
  groupSums df (fun r => r.Environment)

/-! ### Completeness scoring and the missing-field census (Task Set 3) -/

/-- The five tag cells of a record, in `tag_columns` order. -/
def tagCells (r : Rec) : List Cell :=
  [r.Department, r.Project, r.Environment, r.Owner, r.CostCenter]

/-- `filtered_df[tag_columns].notna().sum(axis=1)` for one record:
the Tag Completeness Score, 0–5. -/
def tagCompletenessScore (r : Rec) : ℕ :=
  (tagCells r).countP Cell.notna

/-- Null count of one named column over a view
(`filtered_df[col].isnull().sum()`). -/
def missingCount (df : List Rec) (field : Rec → Cell) : ℕ :=
  (df.filter fun r => (field r).isnull).length

/-! ### The filtered view as mutable state (for the mutation claim)

The aggregations of Task Sets 1–4 read `filtered_df`; the single write is
Task 3.1's `filtered_df['TagCompletenessScore'] = ...`, which adds a column
to the view in place.  The view state is its records plus that optional
extra column. -/

/-- The filtered view as the script holds it: its records, plus the
`TagCompletenessScore` column once Task 3.1 has added it. -/
structure View where
  recs : List Rec
  scoreCol : Option (List ℕ)
deriving DecidableEq

/-- The view produced by the filter block, before any aggregation. -/
def initView (df : List Rec) (s : Selections) : View :=
  ⟨applyFilters df s, none⟩

/-- Task 3.1's in-place assignment
`filtered_df['TagCompletenessScore'] = filtered_df[tag_columns].notna().sum(axis=1)`. -/
def assignScoreColumn (v : View) : View :=
  { v with scoreCol := some (v.recs.map tagCompletenessScore) }

/-- The aggregation phase of the script run on the filtered view: Task
Sets 1 and 2 compute counts, sums, percentages and group-bys from the
view without writing to it; Task 3.1 then assigns the score column in
place; Task 3.3's census again only reads. -/
def runAggregations (v : View) : View :=
  let dfv := v.recs
  let _t12 := (missingCount dfv (fun r => r.Department), missingCount dfv (fun r => r.Owner))
  let _t14 := (tagged_count dfv, untagged_count dfv, tagged_pct_metric dfv)
  let _t15 := untagged_pct dfv
  let _t21 := (total_cost dfv, tagged_cost dfv, untagged_cost dfv)
  let _t22 := untagged_cost_pct dfv
  let _t23 := dept_untagged dfv
  let _t24 := project_cost dfv
  let _t44 := env_cost dfv
  let v2 := assignScoreColumn v
  let _t33 := tag_columns.map fun _ => missingCount v2.recs (fun r => r.Department)
  v2

/-! ### The remediation workflow (Task Set 5) -/

/-- The columns the remediation copy is restricted to
(the literal column list of `untagged_editable` in the source). -/
def editable_columns : List String :=
  ["ResourceID", "Service", "Department", "Project", "Environment",
   "Owner", "CostCenter", "MonthlyCostUSD"]

/-- The header row `DataFrame.to_csv` writes for the remediation copy. -/
def remediation_csv_header : String :=
  String.intercalate "," editable_columns

/-- The columns of the filtered view after Task 3.1 (the loaded columns
plus the added score column); used to state which view columns the
remediation copy drops. -/
def filtered_view_columns : List String :=
  required_cols ++ ["TagCompletenessScore"]

/-- One row of the remediation copy: the eight `editable_columns`. -/
structure EditRec where
  ResourceID : Cell
  Service : Cell
  Department : Cell
  Project : Cell
  Environment : Cell
  Owner : Cell
  CostCenter : Cell
  MonthlyCostUSD : Option ℚ
deriving DecidableEq

/-- `untagged_editable`: the currently untagged filtered records,
restricted to the eight editable columns (a fresh copy). -/
def untagged_editable (df : List Rec) : List EditRec :=
  (df.filter fun r => decide (r.Tagged = Cell.str "No")).map fun r =>
    ⟨r.ResourceID, r.Service, r.Department, r.Project, r.Environment,
     r.Owner, r.CostCenter, r.MonthlyCostUSD⟩

/-- `edited_df[tag_columns].isnull().any(axis=1)` for one edited row:
at least one of the five tag fields is null. -/
def rowMissingTag (e : EditRec) : Bool :=
  e.Department.isnull || e.Project.isnull || e.Environment.isnull ||
    e.Owner.isnull || e.CostCenter.isnull

/-- The five tag cells of an edited row, in `tag_columns` order. -/
def tagCellsEdit (e : EditRec) : List Cell :=
  [e.Department, e.Project, e.Environment, e.Owner, e.CostCenter]

/-- `edited_df[tag_columns].isnull().sum().sum()`: total missing tag
cells of the edited copy. -/
def missing_after (after : List EditRec) : ℕ :=
  (after.map fun e => ((tagCellsEdit e).filter Cell.isnull).length).sum

/-- The `improvement` metric of Task 5.4, exactly as the source computes
it: `len(untagged_editable) - len(edited_df[edited_df[tag_columns].isnull().any(axis=1)])`. -/
def improvement (before after : List EditRec) : ℤ :=
  (before.length : ℤ) - ((after.filter rowMissingTag).length : ℤ)

/-- Modelled from the spec: the improvement count the spec describes,
"(rows with ≥1 missing tag field before) − (rows with ≥1 missing tag
field after)". -/
def improvementSpec (before after : List EditRec) : ℤ :=
  ((before.filter rowMissingTag).length : ℤ) -
    ((after.filter rowMissingTag).length : ℤ)

/-- Rendering of one object cell in a CSV export (NaN prints empty). -/
def renderCell : Cell → String
  | .str s => s
  | .nullv => ""

/-- Rendering of the cost cell in a CSV export; the exact float formatting
is presentation detail, only emptiness of NaN matters to the claims. -/
def renderCost : Option ℚ → String
  | none => ""
  | some q => toString q.num ++ "/" ++ toString q.den

/-- The lines of `edited_df.to_csv(index=False)`: a header row naming the
eight editable columns, then one line per edited row. -/
def remediated_csv (rows : List EditRec) : List String :=
  remediation_csv_header :: rows.map fun e =>
    String.intercalate ","
      [renderCell e.ResourceID, renderCell e.Service, renderCell e.Department,
       renderCell e.Project, renderCell e.Environment, renderCell e.Owner,
       renderCell e.CostCenter, renderCost e.MonthlyCostUSD]

/-! ### Concrete sample data used by witnesses and counterexamples -/

/-- A record with the given department, project, environment, tag flag and
cost; the remaining object columns hold the empty string (as `load_data`
produces for a blank CSV field). -/
def mkSample (dept proj env tag : String) (cost : Option ℚ) : Rec :=
  ⟨Cell.str "", Cell.str "", Cell.str "", Cell.str "", Cell.str dept,
   Cell.str proj, Cell.str env, Cell.str "", Cell.str "", Cell.str "",
   cost, Cell.str tag⟩

/-- Selections choosing only the sentinel `'All'` everywhere. -/
def selAll : Selections := ⟨["All"], ["All"], ["All"], ["All"]⟩

/-- Selections with `'All'` plus further values in two fields. -/
def selW7 : Selections := ⟨["All", "Eng"], ["All"], ["All", "zzz"], ["All"]⟩

/-- A two-record view whose rows would be cut down by `selW7` if `'All'`
did not override the other chosen values. -/
def dfW7 : List Rec :=
  [mkSample "Eng" "P" "Prod" "Yes" none, mkSample "Ops" "Q" "Dev" "No" none]

/-- The end-to-end example dataset of the spec:
Eng/100/Yes, Eng/50/No, Ops/25/No. -/
def dfC9 : List Rec :=
  [mkSample "Eng" "P1" "Prod" "Yes" (some 100),
   mkSample "Eng" "P2" "Prod" "No" (some 50),
   mkSample "Ops" "P3" "Dev" "No" (some 25)]

/-- Two equal-cost projects whose first appearance order ("B" before "A")
differs from ascending key order. -/
def dfC5 : List Rec :=
  [mkSample "Eng" "B" "Prod" "Yes" (some 10),
   mkSample "Ops" "A" "Dev" "Yes" (some 10)]

/-- A small view for the mass-conservation witness: two environments, one
record with a NaN cost. -/
def dfW6 : List Rec :=
  [mkSample "Eng" "P1" "Prod" "Yes" (some 7),
   mkSample "Eng" "P2" "Dev" "No" none,
   mkSample "Ops" "P3" "Prod" "No" (some 5)]

/-- A one-record filtered view with no score column yet. -/
def viewC4 : View := ⟨[mkSample "Eng" "P" "Prod" "Yes" none], none⟩

/-- The remediation copy of a one-record untagged view whose tag fields
are all present (empty strings, hence non-null). -/
def beforeC3 : List EditRec :=
  untagged_editable [mkSample "Eng" "P" "Prod" "No" none]

/-- An edited copy holding one row with every tag field nulled out. -/
def afterC3 : List EditRec :=
  [⟨Cell.str "", Cell.str "", Cell.nullv, Cell.nullv, Cell.nullv,
    Cell.nullv, Cell.nullv, none⟩]

/-- A five-line raw CSV input: a header, a data row whose tag fields are
all blank, a short row to be dropped, a blank line, and a quoted row. -/
def linesW2 : List String :=
  ["AccountID,ResourceID,Service,Region,Department,Project,Environment,Owner,CostCenter,CreatedBy,MonthlyCostUSD,Tagged",
   "a1,r1,EC2,us-east,,,,,,x,,No",
   "bad,row,with,too,few",
   "  ",
   "\"q1\",r2,S3,eu,Eng,P,Prod,o,cc,y,12,Yes"]

/-- The frame `load_data` produces from `linesW2`. -/
def frameW2 : RawFrame :=
  ⟨["AccountID", "ResourceID", "Service", "Region", "Department", "Project",
    "Environment", "Owner", "CostCenter", "CreatedBy", "MonthlyCostUSD", "Tagged"],
   [["a1", "r1", "EC2", "us-east", "", "", "", "", "", "x", "", "No"],
    ["q1", "r2", "S3", "eu", "Eng", "P", "Prod", "o", "cc", "y", "12", "Yes"]]⟩

/-! ## Theorems -/

/-! ### Basic helper lemmas -/

/-- A filter and its complement split the length of a list. -/
lemma length_filter_add_neg {α : Type} (p : α → Bool) (l : List α) :
    (l.filter p).length + (l.filter fun a => ! p a).length = l.length := by
  induction l with
  | nil => rfl
  | cons x t ih =>
    by_cases hx : p x = true <;> simp [List.filter_cons, hx] <;> omega

/-!
### C1.  Empty-view percentage metrics (code bug)

The spec promises every percentage metric is a defined 0% on an empty
filtered view.  Three of the four metrics are guarded in the source, but
the `Tagged %` metric of Task 1.4 (`tagged_count/len(filtered_df)*100`,
line 191) has no guard: on an empty view it raises `ZeroDivisionError`
(modelled as `none`), it does not yield 0%.
-/

/-- C1: on the empty filtered view, the Task 1.4 Tagged % metric is
undefined (a ZeroDivisionError), while the guarded percentages of Tasks
1.5, 2.2 and 2.5 are the defined 0% the spec describes. -/
theorem C1_empty_view_percentages :
    tagged_pct_metric [] = none ∧
      untagged_pct [] = 0 ∧
      untagged_cost_pct [] = 0 ∧
      env_tagging_pct [] "Prod" = 0 := by
  refine ⟨rfl, ?_, ?_, ?_⟩
  · simp [untagged_pct]
  · simp [untagged_cost_pct, total_cost, sumCost]
  · simp [env_tagging_pct]

/-!
### C2.  `load_data` never produces nulls outside the cost column
(confirmed)

The loader keeps every accepted field as a Python string (blank fields
stay `""`); only `MonthlyCostUSD` is coerced, so only it can be NaN.
Consequently `notna` holds on every tag field, every completeness score
is 5 and the missing-tag census is identically zero.
-/

/-- A column name occurring in the header is found within bounds. -/
lemma idxOf_lt_length {name : String} {l : List String} (h : name ∈ l) :
    idxOf name l < l.length := by
  induction l with
  | nil => cases h
  | cons x t ih =>
    by_cases hx : x = name
    · simp [idxOf, hx]
    · rcases List.mem_cons.mp h with rfl | ht
      · exact absurd rfl hx
      · simpa [idxOf, hx] using ih ht

/-- Looking up a present column in a full-length row yields a string cell. -/
lemma colVal_notna {headers row : List String} {name : String}
    (hmem : name ∈ headers) (hlen : row.length = headers.length) :
    (colVal headers row name).notna = true := by
  have hidx : idxOf name headers < row.length := by
    rw [hlen]; exact idxOf_lt_length hmem
  unfold colVal
  rw [List.getElem?_eq_getElem hidx]
  rfl

/-- Every row accepted by `load_data` has exactly as many fields as the
header. -/
lemma load_data_row_length {lines : List String} {f : RawFrame}
    (h : load_data lines = some f) :
    ∀ row ∈ f.rows, row.length = f.headers.length := by
  match lines with
  | [] => simp [load_data] at h
  | headerLine :: rest =>
    simp only [load_data] at h
    split at h
    · injection h with h
      subst h
      intro row hrow
      simp only [List.mem_filterMap] at hrow
      obtain ⟨l, _, hpr⟩ := hrow
      unfold parseRow at hpr
      split at hpr
      · exact absurd hpr (by simp)
      · simp only [] at hpr
        split at hpr
        next hlen =>
          injection hpr with hpr
          subst hpr
          exact hlen
        next => exact absurd hpr (by simp)
    · exact absurd h (by simp)

/-- C2: for every raw input accepted by `load_data` whose header passes
the required-column check, every record field other than `MonthlyCostUSD`
is a (possibly empty) string — never null — so every record's tag
completeness score is 5 and the missing-tag census is 0 for each of the
five tag fields, blank input values included. -/
theorem C2_loaded_fields_never_null (lines : List String) (f : RawFrame)
    (hload : load_data lines = some f)
    (hreq : ∀ c ∈ required_cols, c ∈ f.headers) :
    (∀ r ∈ toRecs f,
        (r.AccountID.notna ∧ r.ResourceID.notna ∧ r.Service.notna ∧
         r.Region.notna ∧ r.Department.notna ∧ r.Project.notna ∧
         r.Environment.notna ∧ r.Owner.notna ∧ r.CostCenter.notna ∧
         r.CreatedBy.notna ∧ r.Tagged.notna) ∧
        tagCompletenessScore r = 5) ∧
      (missingCount (toRecs f) (fun r => r.Department) = 0 ∧
       missingCount (toRecs f) (fun r => r.Project) = 0 ∧
       missingCount (toRecs f) (fun r => r.Environment) = 0 ∧
       missingCount (toRecs f) (fun r => r.Owner) = 0 ∧
       missingCount (toRecs f) (fun r => r.CostCenter) = 0) := by
  have hlen := load_data_row_length hload
  have hfield : ∀ row ∈ f.rows, ∀ name ∈ required_cols,
      (colVal f.headers row name).notna = true := by
    intro row hrow name hname
    exact colVal_notna (hreq name hname) (hlen row hrow)
  have hrec : ∀ r ∈ toRecs f,
      r.AccountID.notna ∧ r.ResourceID.notna ∧ r.Service.notna ∧
        r.Region.notna ∧ r.Department.notna ∧ r.Project.notna ∧
        r.Environment.notna ∧ r.Owner.notna ∧ r.CostCenter.notna ∧
        r.CreatedBy.notna ∧ r.Tagged.notna := by
    intro r hr
    obtain ⟨row, hrow, rfl⟩ := List.mem_map.mp hr
    exact ⟨hfield row hrow "AccountID" (by decide),
           hfield row hrow "ResourceID" (by decide),
           hfield row hrow "Service" (by decide),
           hfield row hrow "Region" (by decide),
           hfield row hrow "Department" (by decide),
           hfield row hrow "Project" (by decide),
           hfield row hrow "Environment" (by decide),
           hfield row hrow "Owner" (by decide),
           hfield row hrow "CostCenter" (by decide),
           hfield row hrow "CreatedBy" (by decide),
           hfield row hrow "Tagged" (by decide)⟩
  have hscore : ∀ r ∈ toRecs f, tagCompletenessScore r = 5 := by
    intro r hr
    obtain ⟨-, -, -, -, hDept, hProj, hEnv, hOwn, hCC, -, -⟩ := hrec r hr
    simp [tagCompletenessScore, tagCells, List.countP_cons,
      hDept, hProj, hEnv, hOwn, hCC]
  have hmc : ∀ field : Rec → Cell,
      (∀ r ∈ toRecs f, (field r).notna = true) →
        missingCount (toRecs f) field = 0 := by
    intro field hf
    unfold missingCount
    rw [List.length_eq_zero]
    refine List.filter_eq_nil_iff.mpr fun r hr => ?_
    simp [Cell.isnull, hf r hr]
  refine ⟨fun r hr => ⟨hrec r hr, hscore r hr⟩, ?_, ?_, ?_, ?_, ?_⟩
  · exact hmc _ fun r hr => (hrec r hr).2.2.2.2.1
  · exact hmc _ fun r hr => (hrec r hr).2.2.2.2.2.1
  · exact hmc _ fun r hr => (hrec r hr).2.2.2.2.2.2.1
  · exact hmc _ fun r hr => (hrec r hr).2.2.2.2.2.2.2.1
  · exact hmc _ fun r hr => (hrec r hr).2.2.2.2.2.2.2.2.1

/-- C2 witness: a concrete five-line CSV with an all-blank data row still
loads to records whose tag fields are non-null strings scoring 5. -/
theorem C2_witness :
    load_data linesW2 = some frameW2 ∧
      (∀ c ∈ required_cols, c ∈ frameW2.headers) ∧
      ∀ r ∈ toRecs frameW2, tagCompletenessScore r = 5 ∧ r.Department.notna = true := by
  refine ⟨by decide, by decide, fun r hr => ?_⟩
  have h := C2_loaded_fields_never_null linesW2 frameW2 (by decide) (by decide)
  exact ⟨(h.1 r hr).2, (h.1 r hr).1.2.2.2.2.1⟩

/-!
### C3.  The improvement metric (corrected)

The source computes `improvement` as the total row count of the
remediation copy minus the edited rows still missing a tag field, not as
the spec's "missing-before minus missing-after".
-/

/-- C3 counterexample: for a remediation copy holding one untagged row
whose tag fields are all present, an identity edit gives `improvement`
of 1, while the claimed subtraction gives 0. -/
theorem C3_counterexample :
    improvement beforeC3 beforeC3 ≠ improvementSpec beforeC3 beforeC3 := by
  decide

/-- C3 amended: `improvement` equals the claimed difference plus the
number of before-rows with no missing tag field (the source's minuend is
the whole copy, not just its incomplete rows); the value is a plain
subtraction that can go negative and is not clamped. -/
theorem C3_amended_improvement :
    (∀ before after : List EditRec,
        improvement before after =
          improvementSpec before after +
            ((before.filter fun e => ! rowMissingTag e).length : ℤ)) ∧
      improvement [] afterC3 < 0 := by
  constructor
  · intro b a
    have hb := length_filter_add_neg rowMissingTag b
    unfold improvement improvementSpec
    omega
  · decide

/-!
### C4.  Aggregations and mutation of the filtered view (corrected)

Task 3.1 writes `filtered_df['TagCompletenessScore'] = ...`, adding a
column to the filtered view in place, so the view is not identical after
the aggregation phase.
-/

/-- C4 counterexample: running the aggregation phase on a concrete
filtered view changes the view (the score column appears). -/
theorem C4_counterexample : runAggregations viewC4 ≠ viewC4 := by
  decide

/-- C4 amended: the aggregation phase never changes the rows or the
loaded columns of the filtered view, but it does mutate the view by
adding the `TagCompletenessScore` column in place (Task 3.1); that added
column is exactly the per-record completeness score. -/
theorem C4_amended_only_score_column (v : View) :
    (runAggregations v).recs = v.recs ∧
      (runAggregations v).scoreCol = some (v.recs.map tagCompletenessScore) :=
  ⟨rfl, rfl⟩

/-!
### Order and permutation lemmas for the group-by-sum sorts
(used by C5 and C6)

Only stability-independent consequences of the descending sort are
proved universally, per the fidelity note at `sortCostDesc`.
-/

/-- Membership through `dedupFirst`. -/
lemma mem_dedupFirst {y : String} : ∀ {l : List String},
    y ∈ dedupFirst l ↔ y ∈ l := by
  intro l
  induction l with
  | nil => simp [dedupFirst]
  | cons x xs ih =>
    simp only [dedupFirst, List.mem_cons, List.mem_filter]
    constructor
    · rintro (rfl | ⟨hy, -⟩)
      · exact Or.inl rfl
      · exact Or.inr (ih.mp hy)
    · rintro (rfl | hy)
      · exact Or.inl rfl
      · by_cases hx : y = x
        · exact Or.inl hx
        · exact Or.inr ⟨ih.mpr hy, by simp [hx]⟩

/-- `dedupFirst` yields distinct values. -/
lemma nodup_dedupFirst : ∀ l : List String, (dedupFirst l).Nodup := by
  intro l
  induction l with
  | nil => exact List.nodup_nil
  | cons x xs ih =>
    refine List.nodup_cons.mpr ⟨?_, List.Nodup.filter _ ih⟩
    intro hx
    have := (List.mem_filter.mp hx).2
    simp at this

/-- Membership through `insertDesc`. -/
lemma mem_insertDesc {y p : String × ℚ} : ∀ {l : List (String × ℚ)},
    y ∈ insertDesc p l ↔ y = p ∨ y ∈ l := by
  intro l
  induction l with
  | nil => simp [insertDesc]
  | cons q qs ih =>
    by_cases h : q.2 ≤ p.2 <;> · simp [insertDesc, h, ih]; try tauto

/-- Inserting into a weakly descending list keeps it weakly descending
(true of the insertion regardless of how ties are placed). -/
lemma insertDesc_sorted_le (p : String × ℚ) : ∀ {l : List (String × ℚ)},
    l.Pairwise (fun a b => b.2 ≤ a.2) →
      (insertDesc p l).Pairwise (fun a b => b.2 ≤ a.2) := by
  intro l
  induction l with
  | nil => intro _; simp [insertDesc]
  | cons q qs ih =>
    intro hp
    obtain ⟨hqall, hqs⟩ := List.pairwise_cons.mp hp
    by_cases h : q.2 ≤ p.2
    · rw [insertDesc, if_pos h]
      refine List.pairwise_cons.mpr ⟨?_, hp⟩
      intro z hz
      rcases List.mem_cons.mp hz with rfl | hz2
      · exact h
      · exact le_trans (hqall z hz2) h
    · rw [insertDesc, if_neg h]
      refine List.pairwise_cons.mpr ⟨?_, ih hqs⟩
      intro z hz
      rcases mem_insertDesc.mp hz with rfl | hz2
      · exact le_of_lt (lt_of_not_le h)
      · exact hqall z hz2

/-- The descending sort always emits a weakly descending list. -/
lemma sortCostDesc_sorted_le : ∀ l : List (String × ℚ),
    (sortCostDesc l).Pairwise (fun a b => b.2 ≤ a.2) := by
  intro l
  induction l with
  | nil => exact List.Pairwise.nil
  | cons p ps ih => exact insertDesc_sorted_le p ih

/-- `insertDesc` only repositions the inserted element. -/
lemma insertDesc_perm (p : String × ℚ) : ∀ l : List (String × ℚ),
    (insertDesc p l).Perm (p :: l) := by
  intro l
  induction l with
  | nil => exact List.Perm.refl _
  | cons q qs ih =>
    by_cases h : q.2 ≤ p.2
    · rw [insertDesc, if_pos h]
    · rw [insertDesc, if_neg h]
      exact (ih.cons q).trans (List.Perm.swap p q qs)

/-- The descending sort is a permutation: it neither drops, duplicates
nor alters any group entry (true of any correct sort, stable or not). -/
lemma sortCostDesc_perm : ∀ l : List (String × ℚ),
    (sortCostDesc l).Perm l := by
  intro l
  induction l with
  | nil => exact List.Perm.refl _
  | cons p ps ih => exact (insertDesc_perm p (sortCostDesc ps)).trans (ih.cons p)


/-!
### Summation lemmas (used by C6)
-/

/-- Pointwise sums split. -/
lemma sum_map_add {α : Type} (f g : α → ℚ) (l : List α) :
    (l.map fun a => f a + g a).sum = (l.map f).sum + (l.map g).sum := by
  induction l with
  | nil => simp
  | cons x t ih =>
    simp only [List.map_cons, List.sum_cons, ih]
    ring

/-- A conditional sum over keys not containing the hit is zero. -/
lemma sum_map_ite_notmem (s : String) (c : ℚ) : ∀ L : List String, s ∉ L →
    (L.map fun k => if s = k then c else 0).sum = 0 := by
  intro L
  induction L with
  | nil => intro _; rfl
  | cons x t ih =>
    intro h
    have hx : s ≠ x := fun e => h (e ▸ List.mem_cons_self x t)
    simp [hx, ih fun hm => h (List.mem_cons_of_mem _ hm)]

/-- A conditional sum over duplicate-free keys containing the hit once
collapses to the hit. -/
lemma sum_map_ite_single (s : String) (c : ℚ) : ∀ L : List String,
    L.Nodup → s ∈ L → (L.map fun k => if s = k then c else 0).sum = c := by
  intro L
  induction L with
  | nil => intro _ h; cases h
  | cons x t ih =>
    intro hnd hs
    obtain ⟨hx, ht⟩ := List.nodup_cons.mp hnd
    rcases List.mem_cons.mp hs with rfl | hs2
    · have hnot : s ∉ t := hx
      simp [sum_map_ite_notmem s c t hnot]
    · have hsx : s ≠ x := fun e => hx (e ▸ hs2)
      simp [hsx, ih ht hs2]

/-- Filtering one more record in or out of a group sum. -/
lemma sumCost_filter_cons (key : Rec → Cell) (k : String) (x : Rec) (t : List Rec) :
    sumCost ((x :: t).filter fun r => decide (key r = Cell.str k)) =
      (if key x = Cell.str k then costOf x else 0) +
        sumCost (t.filter fun r => decide (key r = Cell.str k)) := by
  by_cases h : key x = Cell.str k <;> simp [List.filter_cons, h, sumCost]

/-- Summing the per-group sums over any duplicate-free key list covering
every record recovers the total sum: the groups partition the view. -/
lemma sum_over_groups (key : Rec → Cell) (L : List String) :
    ∀ df : List Rec, L.Nodup →
      (∀ r ∈ df, ∃ s, key r = Cell.str s ∧ s ∈ L) →
      (L.map fun k =>
        sumCost (df.filter fun r => decide (key r = Cell.str k))).sum = sumCost df := by
  intro df
  induction df with
  | nil =>
    intro _ _
    simp [sumCost, List.map_const', List.sum_replicate]
  | cons x t ih =>
    intro hnd hcov
    obtain ⟨s, hks, hsL⟩ := hcov x (List.mem_cons_self x t)
    have hcov2 : ∀ r ∈ t, ∃ s2, key r = Cell.str s2 ∧ s2 ∈ L :=
      fun r hr => hcov r (List.mem_cons_of_mem _ hr)
    have step : ∀ k, sumCost ((x :: t).filter fun r => decide (key r = Cell.str k)) =
        (if s = k then costOf x else 0) +
          sumCost (t.filter fun r => decide (key r = Cell.str k)) := by
      intro k
      rw [sumCost_filter_cons]
      congr 1
      rw [hks]
      by_cases hsk : s = k
      · simp [hsk]
      · simp [hsk]
    calc (L.map fun k =>
            sumCost ((x :: t).filter fun r => decide (key r = Cell.str k))).sum
        = (L.map fun k => (if s = k then costOf x else 0) +
            sumCost (t.filter fun r => decide (key r = Cell.str k))).sum := by
          exact congrArg List.sum (List.map_congr_left fun k _ => step k)
      _ = (L.map fun k => if s = k then costOf x else 0).sum +
            (L.map fun k =>
              sumCost (t.filter fun r => decide (key r = Cell.str k))).sum :=
          sum_map_add _ _ _
      _ = costOf x + sumCost t := by
          rw [sum_map_ite_single s (costOf x) L hnd hsL, ih hnd hcov2]
      _ = sumCost (x :: t) := by simp [sumCost]

/-- `insertDesc` preserves the sum of the summed-cost column. -/
lemma sum_snd_insertDesc (p : String × ℚ) : ∀ l : List (String × ℚ),
    ((insertDesc p l).map Prod.snd).sum = p.2 + (l.map Prod.snd).sum := by
  intro l
  induction l with
  | nil => simp [insertDesc]
  | cons q t ih =>
    by_cases h : q.2 ≤ p.2
    · simp [insertDesc, h]
    · simp only [insertDesc, if_neg h, List.map_cons, List.sum_cons, ih]
      ring

/-- The descending sort preserves the sum of the summed-cost column. -/
lemma sum_snd_sortCostDesc : ∀ l : List (String × ℚ),
    ((sortCostDesc l).map Prod.snd).sum = (l.map Prod.snd).sum := by
  intro l
  induction l with
  | nil => rfl
  | cons p t ih => simp [sortCostDesc, sum_snd_insertDesc, ih]

/-- `insertAsc` preserves sums of any function over the keys. -/
lemma sum_map_insertAsc (f : String → ℚ) (k : String) : ∀ l : List String,
    ((insertAsc k l).map f).sum = f k + (l.map f).sum := by
  intro l
  induction l with
  | nil => simp [insertAsc]
  | cons x t ih =>
    by_cases h : strLt x k = true
    · simp only [insertAsc, if_pos h, List.map_cons, List.sum_cons, ih]
      ring
    · simp [insertAsc, if_neg h]

/-- The ascending key sort preserves sums of any function over the keys. -/
lemma sum_map_sortKeysAsc (f : String → ℚ) : ∀ l : List String,
    ((sortKeysAsc l).map f).sum = (l.map f).sum := by
  intro l
  induction l with
  | nil => rfl
  | cons k t ih => simp [sortKeysAsc, sum_map_insertAsc, ih]

/-!
### C5.  Group ordering and tie-breaking (corrected)

`groupby` emits its keys in ascending order before `sort_values`
reorders by descending sum with an unstable quicksort, so equal-sum
groups do not, in general, appear in first-appearance order as the spec
claims: in the small-tie regime (where the quicksort runs its stable
insertion-sort phase, as at the two-group counterexample below) ties
surface in ascending key order, and above numpy's threshold the tie
order is a partition artifact.  The amended statement therefore asserts
only what any correct descending sort guarantees: weakly descending
order and exact preservation of the grouped sums.
-/

/-- C5 counterexample: two equal-cost projects, "B" appearing before "A"
in the view.  With two tied groups the quicksort is in its stable
insertion-sort regime, so the code puts "A" first (ascending key order);
the spec's first-appearance tie-break would put "B" first. -/
theorem C5_counterexample :
    project_cost dfC5 ≠ groupBySumSpec dfC5 (fun r => r.Project) := by
  have hsA : sumCost (dfC5.filter fun r => decide (r.Project = Cell.str "A")) = 10 := by
    have hA : dfC5.filter (fun r => decide (r.Project = Cell.str "A")) =
        [mkSample "Ops" "A" "Dev" "Yes" (some 10)] := by decide
    rw [hA]
    norm_num [sumCost, costOf, mkSample]
  have hsB : sumCost (dfC5.filter fun r => decide (r.Project = Cell.str "B")) = 10 := by
    have hB : dfC5.filter (fun r => decide (r.Project = Cell.str "B")) =
        [mkSample "Eng" "B" "Prod" "Yes" (some 10)] := by decide
    rw [hB]
    norm_num [sumCost, costOf, mkSample]
  have h1 : project_cost dfC5 = [("A", 10), ("B", 10)] := by
    have hkeys : groupKeys dfC5 (fun r => r.Project) = ["A", "B"] := by decide
    unfold project_cost groupBySum groupSums
    rw [hkeys]
    simp only [List.map_cons, List.map_nil, hsA, hsB]
    norm_num [sortCostDesc, insertDesc]
  have h2 : groupBySumSpec dfC5 (fun r => r.Project) = [("B", 10), ("A", 10)] := by
    have hdedup : dedupFirst (dfC5.filterMap fun r => cellStr? r.Project) = ["B", "A"] := by
      decide
    unfold groupBySumSpec
    rw [hdedup]
    simp only [List.map_cons, List.map_nil, hsA, hsB]
    norm_num [sortCostDesc, insertDesc]
  rw [h1, h2]
  simp

/-- C5 amended: every group-by-sum result lists the groups in weakly
descending order of summed cost, and holds exactly the groups and sums
of the underlying groupby (a permutation of `groupSums`); the relative
order of equal-sum groups is an artifact of the unstable quicksort
behind `sort_values` and in particular is not the first-appearance
order of the group key. -/
theorem C5_descending_sum_groups (df : List Rec) (key : Rec → Cell) :
    (groupBySum df key).Pairwise (fun a b => b.2 ≤ a.2) ∧
      (groupBySum df key).Perm (groupSums df key) :=
  ⟨sortCostDesc_sorted_le _, sortCostDesc_perm _⟩

/-!
### C6.  Mass conservation of group-by-sums (confirmed)

Within this program group keys are always strings (possibly empty, for a
blank CSV field — kept as its own `""` group), so the groups partition
the view and their totals sum to the view's total.
-/

/-- C6: for every view whose group-key column holds no null (which holds
for every view this dashboard builds, by C2), the group totals of the
group-by-sum — sorted or not — sum to the view's total cost, NaN costs
contributing zero. -/
theorem C6_mass_conservation (df : List Rec) (key : Rec → Cell)
    (hkeys : ∀ r ∈ df, (key r).notna = true) :
    ((groupBySum df key).map Prod.snd).sum = total_cost df ∧
      ((groupSums df key).map Prod.snd).sum = total_cost df := by
  have hcov : ∀ r ∈ df, ∃ s, key r = Cell.str s ∧
      s ∈ dedupFirst (df.filterMap fun r => cellStr? (key r)) := by
    intro r hr
    have hn := hkeys r hr
    cases hk : key r with
    | nullv => rw [hk] at hn; simp [Cell.notna] at hn
    | str s =>
      refine ⟨s, rfl, mem_dedupFirst.mpr ?_⟩
      exact List.mem_filterMap.mpr ⟨r, hr, by simp [hk, cellStr?]⟩
  have h2 : ((groupSums df key).map Prod.snd).sum = total_cost df := by
    unfold groupSums groupKeys
    rw [List.map_map]
    have hc : (Prod.snd ∘ fun k =>
        (k, sumCost (df.filter fun r => decide (key r = Cell.str k)))) =
        fun k => sumCost (df.filter fun r => decide (key r = Cell.str k)) := rfl
    rw [hc, sum_map_sortKeysAsc]
    exact sum_over_groups key _ df (nodup_dedupFirst _) hcov
  refine ⟨?_, h2⟩
  unfold groupBySum
  rw [sum_snd_sortCostDesc]
  exact h2

/-- C6 witness: a three-record view with two environments and one NaN
cost conserves mass under the environment group-by. -/
theorem C6_witness :
    (∀ r ∈ dfW6, (r.Environment).notna = true) ∧
      ((groupBySum dfW6 (fun r => r.Environment)).map Prod.snd).sum = total_cost dfW6 :=
  ⟨by decide, (C6_mass_conservation dfW6 (fun r => r.Environment) (by decide)).1⟩

/-!
### C7.  The `'All'` sentinel (confirmed)
-/

/-- C7: when `'All'` is among the chosen values of every filter field, the
filters return the dataset unchanged, in its original order, whatever
other values are chosen alongside it. -/
theorem C7_all_sentinel_identity (df : List Rec) (s : Selections)
    (hd : "All" ∈ s.dept) (hs : "All" ∈ s.service)
    (hr : "All" ∈ s.region) (he : "All" ∈ s.env) :
    applyFilters df s = df := by
  simp [applyFilters, hd, hs, hr, he]

/-- C7 witness: a selection containing `'All'` plus other values in two
fields leaves a concrete two-record dataset untouched. -/
theorem C7_witness :
    ("All" ∈ selW7.dept ∧ "All" ∈ selW7.service ∧
        "All" ∈ selW7.region ∧ "All" ∈ selW7.env) ∧
      applyFilters dfW7 selW7 = dfW7 :=
  ⟨by decide,
   C7_all_sentinel_identity dfW7 selW7 (by decide) (by decide) (by decide) (by decide)⟩

/-!
### C8.  Mismatched-field-count lines are dropped (confirmed)
-/

/-- C8: a data line whose cleaned field count differs from the header's is
dropped without an error: loading with the line present gives exactly the
result of loading with it removed, so neither the surrounding lines'
parses nor the set of accepted rows changes. -/
theorem C8_mismatched_line_dropped (headerLine bad : String)
    (pre post : List String)
    (hbad : (cleanLine bad).length ≠ (cleanLine headerLine).length) :
    load_data (headerLine :: (pre ++ bad :: post)) =
      load_data (headerLine :: (pre ++ post)) := by
  have hdrop : parseRow (cleanLine headerLine) bad = none := by
    unfold parseRow
    by_cases hb : (stripChars bad.data).isEmpty = true
    · simp [hb]
    · simp [hb, hbad]
  simp [load_data, List.filterMap_append, List.filterMap_cons, hdrop]

/-- C8 witness: dropping a three-field line under a two-field header. -/
theorem C8_witness :
    (cleanLine "1,2,3").length ≠ (cleanLine "A,B").length ∧
      load_data ("A,B" :: (["x,y"] ++ "1,2,3" :: ["p,q"])) =
        load_data ("A,B" :: (["x,y"] ++ ["p,q"])) :=
  ⟨by decide,
   C8_mismatched_line_dropped "A,B" "1,2,3" ["x,y"] ["p,q"] (by decide)⟩

/-!
### C9.  The end-to-end example (confirmed)
-/

/-- C9: on the three-record example with every filter at `'All'`, the
pipeline computes total cost 175, untagged cost 75, untagged-cost
percentage 300/7 (displayed as 42.86%), and `dept_untagged` puts "Eng"
first with 50. -/
theorem C9_end_to_end_example :
    applyFilters dfC9 selAll = dfC9 ∧
      total_cost dfC9 = 175 ∧
      untagged_cost dfC9 = 75 ∧
      untagged_cost_pct dfC9 = 300 / 7 ∧
      round2 (untagged_cost_pct dfC9) = 4286 / 100 ∧
      dept_untagged dfC9 = [("Eng", 50), ("Ops", 25)] := by
  have hfilterNo : dfC9.filter (fun r => decide (r.Tagged = Cell.str "No")) =
      [mkSample "Eng" "P2" "Prod" "No" (some 50),
       mkSample "Ops" "P3" "Dev" "No" (some 25)] := by decide
  have htot : total_cost dfC9 = 175 := by
    norm_num [total_cost, sumCost, costOf, dfC9, mkSample]
  have hunt : untagged_cost dfC9 = 75 := by
    unfold untagged_cost
    rw [hfilterNo]
    norm_num [sumCost, costOf, mkSample]
  have hpct : untagged_cost_pct dfC9 = 300 / 7 := by
    unfold untagged_cost_pct
    rw [htot, hunt]
    norm_num
  have hdept : dept_untagged dfC9 = [("Eng", 50), ("Ops", 25)] := by
    unfold dept_untagged
    rw [hfilterNo]
    have hkeys : groupKeys
        [mkSample "Eng" "P2" "Prod" "No" (some 50),
         mkSample "Ops" "P3" "Dev" "No" (some 25)] (fun r => r.Department) =
        ["Eng", "Ops"] := by decide
    have hsE : sumCost
        (([mkSample "Eng" "P2" "Prod" "No" (some 50),
           mkSample "Ops" "P3" "Dev" "No" (some 25)]).filter
          fun r => decide (r.Department = Cell.str "Eng")) = 50 := by
      have hf : ([mkSample "Eng" "P2" "Prod" "No" (some 50),
          mkSample "Ops" "P3" "Dev" "No" (some 25)]).filter
            (fun r => decide (r.Department = Cell.str "Eng")) =
          [mkSample "Eng" "P2" "Prod" "No" (some 50)] := by decide
      rw [hf]
      norm_num [sumCost, costOf, mkSample]
    have hsO : sumCost
        (([mkSample "Eng" "P2" "Prod" "No" (some 50),
           mkSample "Ops" "P3" "Dev" "No" (some 25)]).filter
          fun r => decide (r.Department = Cell.str "Ops")) = 25 := by
      have hf : ([mkSample "Eng" "P2" "Prod" "No" (some 50),
          mkSample "Ops" "P3" "Dev" "No" (some 25)]).filter
            (fun r => decide (r.Department = Cell.str "Ops")) =
          [mkSample "Ops" "P3" "Dev" "No" (some 25)] := by decide
      rw [hf]
      norm_num [sumCost, costOf, mkSample]
    unfold groupBySum groupSums
    rw [hkeys]
    simp only [List.map_cons, List.map_nil, hsE, hsO]
    norm_num [sortCostDesc, insertDesc]
  have hround : round2 (untagged_cost_pct dfC9) = 4286 / 100 := by
    rw [hpct]
    have hfloor : ⌊(300 : ℚ) / 7 * 100 + 1 / 2⌋ = 4286 := by
      norm_num [Int.floor_eq_iff]
    unfold round2
    rw [hfloor]
    norm_num
  exact ⟨by decide, htot, hunt, hpct, hround, hdept⟩

/-!
### C10.  Columns of the remediation copy and its export (confirmed)
-/

/-- C10: the remediation copy is restricted to exactly the eight editable
columns, its CSV export's header row names exactly those columns, and the
`AccountID`, `CreatedBy`, `Tagged` and `TagCompletenessScore` columns of
the filtered view are all absent from them. -/
theorem C10_remediation_columns :
    (editable_columns =
        ["ResourceID", "Service", "Department", "Project", "Environment",
         "Owner", "CostCenter", "MonthlyCostUSD"] ∧
      (∀ rows : List EditRec,
        (remediated_csv rows).head? =
          some "ResourceID,Service,Department,Project,Environment,Owner,CostCenter,MonthlyCostUSD")) ∧
      (("AccountID" ∈ filtered_view_columns ∧ "AccountID" ∉ editable_columns) ∧
       ("CreatedBy" ∈ filtered_view_columns ∧ "CreatedBy" ∉ editable_columns) ∧
       ("Tagged" ∈ filtered_view_columns ∧ "Tagged" ∉ editable_columns) ∧
       ("TagCompletenessScore" ∈ filtered_view_columns ∧
         "TagCompletenessScore" ∉ editable_columns)) := by
  exact ⟨⟨by decide, fun rows => by show some remediation_csv_header = _; decide⟩,
    by decide⟩

end Week10
